import Mathlib

/-!
Shallow embedding of the validation analysis engine of the repository
(`project1/validation/plot_results.py` and `plot_results_2.py`, in the
`01.26` and `02.13_Noauxiliarypoints` snapshots).

Python floats are embedded as rationals (`ℚ`); the square roots occurring
in the Pearson correlation and in the RMSE force those two derived values
into `ℝ`.  NumPy's NaN result of a zero-variance correlation is embedded
as `Option.none`.  File input is abstracted by passing the parsed-or-not
field contents directly (a CSV field is an `Option ℚ`: `none` when Python
`float()` would raise `ValueError` on it).
-/

namespace PlotResults

/-- Verdict of the Validation Judge: one flag per criterion plus their
conjunction (`print_statistics`, `01.26/plot_results_2.py`). -/
structure Verdict where
  minimum_ok : Bool
  correlation_ok : Bool
  derivative_near_zero_ok : Bool
  overall_ok : Bool
deriving Repr, DecidableEq

/-- Validation Judge, from `print_statistics` in `01.26/plot_results_2.py`
lines 200-229: `success` starts `True` and is cleared by each failing
criterion, so `overall_ok` is the conjunction of the three criteria.
`angle_error` stands for the code's `abs(min_angle - 5.0)`,
`near_expected` for `num_deriv[idx_5deg]`. -/
def validationJudge (angle_error correlation near_expected : ℚ) : Verdict :=
  let m := decide (angle_error < 0.2)
  let c := decide (correlation > 0.95)
  let d := decide (|near_expected| < 1000)
  ⟨m, c, d, m && c && d⟩

/-- Minimum of a nonempty list, as computed by `np.min` / `float(np.min(...))`
(the `[]` case is never reached by the callers; NumPy would raise there). -/
def listMin : List ℚ → ℚ
  | [] => 0
  | [x] => x
  | x :: y :: tl => min x (listMin (y :: tl))

/-- Maximum of a nonempty list, as computed by `np.max`. -/
def listMax : List ℚ → ℚ
  | [] => 0
  | [x] => x
  | x :: y :: tl => max x (listMax (y :: tl))

theorem listMin_le {l : List ℚ} {a : ℚ} (ha : a ∈ l) : listMin l ≤ a := by
  induction l with
  | nil => cases ha
  | cons x tl ih =>
    cases tl with
    | nil =>
      rcases List.mem_cons.mp ha with h | h
      · subst h; simp [listMin]
      · cases h
    | cons y tl2 =>
      rcases List.mem_cons.mp ha with h | h
      · subst h; simp [listMin]
      · exact le_trans (by simp [listMin]) (ih h)

theorem le_listMax {l : List ℚ} {a : ℚ} (ha : a ∈ l) : a ≤ listMax l := by
  induction l with
  | nil => cases ha
  | cons x tl ih =>
    cases tl with
    | nil =>
      rcases List.mem_cons.mp ha with h | h
      · subst h; simp [listMax]
      · cases h
    | cons y tl2 =>
      rcases List.mem_cons.mp ha with h | h
      · subst h; simp [listMax]
      · exact le_trans (ih h) (by simp [listMax])

theorem listMin_mem {l : List ℚ} (h : l ≠ []) : listMin l ∈ l := by
  induction l with
  | nil => exact absurd rfl h
  | cons x tl ih =>
    cases tl with
    | nil => simp [listMin]
    | cons y tl2 =>
      rcases le_total x (listMin (y :: tl2)) with hle | hle
      · simp [listMin, min_eq_left hle]
      · have : listMin (x :: y :: tl2) = listMin (y :: tl2) := by
          simp [listMin, min_eq_right hle]
        rw [this]
        exact List.mem_cons_of_mem x (ih (by simp))

theorem listMin_le_listMax {l : List ℚ} (h : l ≠ []) : listMin l ≤ listMax l :=
  le_listMax (listMin_mem h)

/-- Window Calculator `compute_centered_xlim` from
`02.13_Noauxiliarypoints/plot_results.py` lines 50-56 (identical in
`plot_results_2.py` lines 48-54): the half-width is
`max(expected - data_min, data_max - expected) + margin` and the window is
centered on `expected_angle`.  The Python default `margin=0.5` is passed
explicitly here. -/
def compute_centered_xlim (angles : List ℚ) (expected_angle margin : ℚ) : ℚ × ℚ :=
  let data_min := listMin angles
  let data_max := listMax angles
  let half := max (expected_angle - data_min) (data_max - expected_angle) + margin
  (expected_angle - half, expected_angle + half)

/-- Index of the first occurrence of the minimum, as computed by
`np.argmin` (and by pandas `idxmin`, which also returns the first
occurrence).  The `[]` case is never reached by the callers. -/
def argminIdx : List ℚ → Nat
  | [] => 0
  | [_] => 0
  | x :: y :: tl => if x ≤ listMin (y :: tl) then 0 else argminIdx (y :: tl) + 1

/-- Minimum Locator: `min_idx = np.argmin(values); angles[min_idx],
values[min_idx]` (`print_statistics` in `01.26/plot_results_2.py` lines
171-179; the pandas `idxmin` variant in `02.13/plot_results.py` lines
62-64 is the same computation).  The Series is a list of
`(angle, objective)` samples. -/
def minimumLocator (series : List (ℚ × ℚ)) : ℚ × ℚ :=
  let values := series.map Prod.snd
  let min_idx := argminIdx values
  ((series.map Prod.fst).getD min_idx 0, values.getD min_idx 0)

/-- State of the side-channel file `results/expected_angle.txt`: absent,
present with content that `float()` rejects (`ValueError`), or present
with content parsing to `v`. -/
inductive SideChannel where
  | absent
  | malformed
  | value (v : ℚ)
deriving Repr, DecidableEq

/-- Expected-Angle Resolver `resolve_expected_angle` from
`02.13_Noauxiliarypoints/plot_results.py` lines 33-45: the CLI value wins
when given; otherwise the side-channel file is read, a `ValueError` while
parsing it falls through (`except ValueError: pass`); otherwise `5.0`. -/
def resolve_expected_angle (cli_value : Option ℚ) (side : SideChannel) : ℚ :=
  match cli_value with
  | some v => v
  | none =>
    match side with
    | .value v => v
    | .malformed => 5
    | .absent => 5

/-- Errors the CSV loader can raise: `ValueError` from `float()` on a data
field (the spec's ParseError), and `IndexError` from `row[0]` on an empty
first row. -/
inductive LoadError where
  | parseError
  | indexError
deriving Repr, DecidableEq

/-- Full parse of one row, `[float(x) for x in row]`: `none` as soon as one
field fails to parse (Python raises at the first bad field). -/
def parseRow : List (Option ℚ) → Option (List ℚ)
  | [] => some []
  | none :: _ => none
  | some v :: fs => (parseRow fs).map (fun vs => v :: vs)

/-- Loading of the rows after row 0: each is fully parsed, the first row
with a bad field aborts with a ParseError. -/
def load_rows : List (List (Option ℚ)) → Except LoadError (List (List ℚ))
  | [] => .ok []
  | r :: rs =>
    match parseRow r with
    | none => .error .parseError
    | some pr =>
      match load_rows rs with
      | .error e => .error e
      | .ok tl => .ok (pr :: tl)

/-- Series Loader `load_csv_data` from
`02.13_Noauxiliarypoints/plot_results_2.py` lines 57-68 (identical logic
in `01.26/plot_results_2.py` lines 38-60): row 0 is skipped exactly when
`float(row[0])` raises `ValueError`; otherwise it is appended like any
data row, and every appended row must parse fully or the load aborts.
`row[0]` on an empty row 0 would raise `IndexError` (not caught). -/
def load_csv_data (rows : List (List (Option ℚ))) : Except LoadError (List (List ℚ)) :=
  match rows with
  | [] => .ok []
  | r0 :: rest =>
    match r0 with
    | [] => .error .indexError
    | f0 :: _ =>
      match f0 with
      | none => load_rows rest
      | some _ =>
        match parseRow r0 with
        | none => .error .parseError
        | some pr =>
          match load_rows rest with
          | .error e => .error e
          | .ok tl => .ok (pr :: tl)

/-- Arithmetic mean (`np.mean`); division by zero on the empty list is the
rational convention `x / 0 = 0`, a case no caller reaches. -/
def mean (l : List ℚ) : ℚ := l.sum / l.length

/-- Deviations of each entry from the mean of the list. -/
def deviations (l : List ℚ) : List ℚ := l.map (fun a => a - mean l)

/-- Sum of products of deviations, the unnormalized covariance.  `np.corrcoef`
normalizes covariance and variances by the same factor, which cancels in the
correlation ratio, so the unnormalized sums carry all the information. -/
def covSum (x y : List ℚ) : ℚ :=
  (List.zipWith (fun a b => a * b) (deviations x) (deviations y)).sum

/-- Unnormalized variance: sum of squared deviations. -/
def varSum (x : List ℚ) : ℚ := covSum x x

/-- Population variance (`varSum` normalized by the length), the
variance-covariance notion the correlation is built from. -/
def popVar (x : List ℚ) : ℚ := varSum x / x.length

/-- Pearson correlation, `np.corrcoef(x, y)[0, 1]` from
`01.26/plot_results_2.py` line 190 (and `02.13/plot_results_2.py` line 141;
pandas `.corr` in `02.13/plot_results.py` line 156): covariance over the
product of standard deviations.  When either variance is zero the float
denominator is zero and NumPy produces NaN, embedded here as `none`. -/
noncomputable def corrcoef (x y : List ℚ) : Option ℝ :=
  if varSum x = 0 ∨ varSum y = 0 then none
  else some ((covSum x y : ℝ) / (Real.sqrt (varSum x) * Real.sqrt (varSum y)))

/-- Root-mean-square error `np.sqrt(np.mean((x - y)**2))` from
`01.26/plot_results_2.py` line 195. -/
noncomputable def rmse (x y : List ℚ) : ℝ :=
  Real.sqrt ((mean ((List.zipWith (fun a b => a - b) x y).map (fun d => d * d)) : ℚ))

/-- Index of the sample whose angle is nearest to the expected angle:
`np.argmin(np.abs(angles - expected))`. -/
def nearestIdx (angles : List ℚ) (expected : ℚ) : Nat :=
  argminIdx (angles.map (fun a => |a - expected|))

/-- Everything the Derivative Comparator reports (`print_statistics`):
nearest-sample derivative values, their absolute difference, the Pearson
correlation and the RMSE of the two derivative columns. -/
structure DerivStats where
  analytical_at_expected : ℚ
  numerical_at_expected : ℚ
  diff_at_expected : ℚ
  correlation : Option ℝ
  rmseValue : ℝ

/-- Derivative Comparator over the columns of `results/derivatives.csv`:
locate the sample nearest the expected angle, read both derivative values
there, and compute `np.corrcoef(num_deriv, ana_deriv)[0, 1]` and the RMSE
of the two columns. -/
noncomputable def derivative_stats (angles ana num : List ℚ) (expected : ℚ) : DerivStats :=
  let idx := nearestIdx angles expected
  let a := ana.getD idx 0
  let n := num.getD idx 0
  { analytical_at_expected := a
    numerical_at_expected := n
    diff_at_expected := |a - n|
    correlation := corrcoef num ana
    rmseValue := rmse num ana }

/-- Report assembled by `print_statistics` of
`02.13_Noauxiliarypoints/plot_results_2.py`: the located minimum, its
error against the expected angle, and the derivative agreement statistics. -/
structure RunReport where
  min_angle : ℚ
  min_value : ℚ
  angle_error : ℚ
  deriv : DerivStats

/-- Outcome of one run of `main`: an early diagnostic naming a missing
input file, an aborted load, or a complete report. -/
inductive RunOutcome where
  | missingFile (resource : String)
  | loadFailed (e : LoadError)
  | report (r : RunReport)

/-- Main pipeline of `02.13_Noauxiliarypoints/plot_results_2.py` lines
146-193: resolve the expected angle, return early with a diagnostic if
either input CSV is missing (`if not os.path.exists(...): print(...);
return`), then load both files (a `ValueError` in `load_csv_data`
propagates and aborts) and compute the statistics.  The two CSV files are
passed as `none` when absent, otherwise as their rows; columns are read
positionally (`data[:, 0]` etc.), well-formed per the Series arity
invariant. -/
noncomputable def mainRun (cli_value : Option ℚ) (side : SideChannel)
    (objFile derivFile : Option (List (List (Option ℚ)))) : RunOutcome :=
  let expected := resolve_expected_angle cli_value side
  match objFile with
  | none => .missingFile "results/objective_function.csv"
  | some objRows =>
    match derivFile with
    | none => .missingFile "results/derivatives.csv"
    | some derivRows =>
      match load_csv_data objRows with
      | .error e => .loadFailed e
      | .ok objData =>
        match load_csv_data derivRows with
        | .error e => .loadFailed e
        | .ok derivData =>
          let angles_obj := objData.map (fun r => r.getD 0 0)
          let values_obj := objData.map (fun r => r.getD 1 0)
          let angles_deriv := derivData.map (fun r => r.getD 0 0)
          let analytical_deriv := derivData.map (fun r => r.getD 1 0)
          let numerical_deriv := derivData.map (fun r => r.getD 2 0)
          let located := minimumLocator (angles_obj.zip values_obj)
          .report
            { min_angle := located.1
              min_value := located.2
              angle_error := |located.1 - expected|
              deriv := derivative_stats angles_deriv analytical_deriv numerical_deriv expected }

/-! ## Claim theorems -/

/-- C1: the Validation Judge evaluates exactly the three boolean criteria
`angle_error < 0.2`, `correlation > 0.95`, `|near_expected| < 1000` and
their conjunction; it is a total function, so it never throws and always
yields a complete verdict.  For `angle_error=0.1, correlation=0.97,
near_expected=500` every flag is true; for `angle_error=0.3` with the
other inputs unchanged only `minimum_ok` is false and `overall_ok` is
false. -/
theorem validation_judge_spec :
    (∀ a c n : ℚ,
      ((validationJudge a c n).minimum_ok = true ↔ a < 0.2) ∧
      ((validationJudge a c n).correlation_ok = true ↔ c > 0.95) ∧
      ((validationJudge a c n).derivative_near_zero_ok = true ↔ |n| < 1000) ∧
      (validationJudge a c n).overall_ok
        = ((validationJudge a c n).minimum_ok && (validationJudge a c n).correlation_ok
            && (validationJudge a c n).derivative_near_zero_ok)) ∧
    validationJudge 0.1 0.97 500 = ⟨true, true, true, true⟩ ∧
    validationJudge 0.3 0.97 500 = ⟨false, true, true, false⟩ := by
  refine ⟨fun a c n => ⟨by simp [validationJudge], by simp [validationJudge],
    by simp [validationJudge], rfl⟩, ?_, ?_⟩ <;>
    · simp only [validationJudge, Verdict.mk.injEq, decide_eq_true_eq, decide_eq_false_iff_not,
        Bool.and_eq_true, Bool.and_eq_false_iff]
      norm_num

/-- C3 counterexample: on data with `data_min = -5`, `data_max = 10`,
`expected = 5`, `margin = 0.5` the Window Calculator does NOT return
`(-5.5, 10.5)`: the half-width is `max(5-(-5), 10-5) + 0.5 = 10.5`, so the
upper edge is `5 + 10.5 = 15.5`. -/
theorem window_example_counterexample :
    compute_centered_xlim [-5, 10] 5 0.5 ≠ ((-5.5 : ℚ), (10.5 : ℚ)) := by
  simp only [compute_centered_xlim, listMin, listMax, Prod.mk.injEq, ne_eq, not_and]
  norm_num

/-- C3 amended: for `data_min=-5, data_max=10, expected=5, margin=0.5` the
Window Calculator returns `(-5.5, 15.5)` (symmetric about `5`). -/
theorem window_example_amended :
    compute_centered_xlim [-5, 10] 5 0.5 = ((-5.5 : ℚ), (15.5 : ℚ)) := by
  simp only [compute_centered_xlim, listMin, listMax, Prod.mk.injEq]
  norm_num

/-- C4: the Expected-Angle Resolver is total (a plain function, no error
path); an explicit caller value always wins, even over an existing
side-channel file; otherwise a parseable side-channel file supplies its
value; otherwise (absent file, or malformed content — the two being
handled identically) the default `5.0` is returned. -/
theorem resolver_spec (cli : Option ℚ) (side : SideChannel) :
    (∀ v, cli = some v → resolve_expected_angle cli side = v) ∧
    (cli = none → ∀ w, side = .value w → resolve_expected_angle cli side = w) ∧
    (cli = none → side = .absent ∨ side = .malformed →
      resolve_expected_angle cli side = 5) ∧
    resolve_expected_angle cli .absent = resolve_expected_angle cli .malformed := by
  refine ⟨?_, ?_, ?_, ?_⟩
  · rintro v rfl; rfl
  · rintro rfl w rfl; rfl
  · rintro rfl (rfl | rfl) <;> rfl
  · cases cli <;> rfl

/-- C4 witness: an override of `3` beats a side-channel file holding `7.5`;
with no override that file yields `7.5`; with neither, the default is
`5.0`. -/
theorem resolver_spec_witness :
    resolve_expected_angle (some 3) (.value 7.5) = 3 ∧
    resolve_expected_angle none (.value 7.5) = 7.5 ∧
    resolve_expected_angle none .absent = 5 :=
  ⟨(resolver_spec (some 3) (.value 7.5)).1 3 rfl,
   (resolver_spec none (.value 7.5)).2.1 rfl 7.5 rfl,
   (resolver_spec none .absent).2.2.1 rfl (Or.inl rfl)⟩

/-- C2: for a nonempty angle list and a nonnegative margin, the window is
symmetric about the expected angle with half-width
`max(expected - data_min, data_max - expected) + margin`, and it satisfies
`x_min ≤ expected ≤ x_max`, `x_min ≤ min(angle)` and `max(angle) ≤ x_max`:
no data point is clipped. -/
theorem window_calculator_spec (angles : List ℚ) (e m : ℚ)
    (hne : angles ≠ []) (hm : 0 ≤ m) :
    (compute_centered_xlim angles e m).2 - e = e - (compute_centered_xlim angles e m).1 ∧
    e - (compute_centered_xlim angles e m).1
      = max (e - listMin angles) (listMax angles - e) + m ∧
    (compute_centered_xlim angles e m).1 ≤ e ∧
    e ≤ (compute_centered_xlim angles e m).2 ∧
    (compute_centered_xlim angles e m).1 ≤ listMin angles ∧
    listMax angles ≤ (compute_centered_xlim angles e m).2 := by
  have hminmax : listMin angles ≤ listMax angles := listMin_le_listMax hne
  have hmax0 : 0 ≤ max (e - listMin angles) (listMax angles - e) := by
    rcases le_total e (listMin angles) with h | h
    · exact le_trans (by linarith) (le_max_right _ _)
    · exact le_trans (by linarith) (le_max_left _ _)
  have h1 : e - listMin angles ≤ max (e - listMin angles) (listMax angles - e) :=
    le_max_left _ _
  have h2 : listMax angles - e ≤ max (e - listMin angles) (listMax angles - e) :=
    le_max_right _ _
  simp only [compute_centered_xlim]
  refine ⟨by ring, by ring, by linarith, by linarith, by linarith, by linarith⟩

/-- C2 witness: the angle list `[-5, 10]` with expected angle `5` and
margin `0.5`. -/
theorem window_calculator_spec_witness :
    (compute_centered_xlim [-5, 10] 5 0.5).2 - 5
        = 5 - (compute_centered_xlim [-5, 10] 5 0.5).1 ∧
    5 - (compute_centered_xlim [-5, 10] 5 0.5).1
      = max (5 - listMin [-5, 10]) (listMax [-5, 10] - 5) + 0.5 ∧
    (compute_centered_xlim [-5, 10] 5 0.5).1 ≤ 5 ∧
    5 ≤ (compute_centered_xlim [-5, 10] 5 0.5).2 ∧
    (compute_centered_xlim [-5, 10] 5 0.5).1 ≤ listMin [-5, 10] ∧
    listMax [-5, 10] ≤ (compute_centered_xlim [-5, 10] 5 0.5).2 :=
  window_calculator_spec [-5, 10] 5 0.5 (by decide) (by norm_num)

theorem argminIdx_lt_length {l : List ℚ} (h : l ≠ []) : argminIdx l < l.length := by
  induction l with
  | nil => exact absurd rfl h
  | cons x tl ih =>
    cases tl with
    | nil => simp [argminIdx]
    | cons y tl2 =>
      by_cases hx : x ≤ listMin (y :: tl2)
      · simp [argminIdx, hx]
      · have := ih (by simp)
        simp only [argminIdx, if_neg hx, List.length_cons]
        simp only [List.length_cons] at this
        omega

theorem getD_argminIdx {l : List ℚ} (h : l ≠ []) : l.getD (argminIdx l) 0 = listMin l := by
  induction l with
  | nil => exact absurd rfl h
  | cons x tl ih =>
    cases tl with
    | nil => simp [argminIdx, listMin]
    | cons y tl2 =>
      by_cases hx : x ≤ listMin (y :: tl2)
      · simp [argminIdx, hx, listMin, min_eq_left hx]
      · have hlt : listMin (y :: tl2) < x := lt_of_not_le hx
        simp only [argminIdx, if_neg hx, List.getD_cons_succ, listMin,
          min_eq_right (le_of_lt hlt)]
        exact ih (by simp)

theorem getD_lt_argminIdx {l : List ℚ} {j : Nat} (hj : j < argminIdx l) :
    listMin l < l.getD j 0 := by
  induction l generalizing j with
  | nil => simp [argminIdx] at hj
  | cons x tl ih =>
    cases tl with
    | nil => simp [argminIdx] at hj
    | cons y tl2 =>
      by_cases hx : x ≤ listMin (y :: tl2)
      · simp [argminIdx, hx] at hj
      · have hlt : listMin (y :: tl2) < x := lt_of_not_le hx
        have hmin : listMin (x :: y :: tl2) = listMin (y :: tl2) := by
          simp [listMin, min_eq_right (le_of_lt hlt)]
        simp only [argminIdx, if_neg hx] at hj
        cases j with
        | zero => simpa [hmin] using hlt
        | succ j2 =>
          rw [hmin, List.getD_cons_succ]
          exact ih (by omega)

/-- C5: the Minimum Locator returns the sample at the first occurrence of
the smallest objective value: the returned pair is the Series entry at
index `argminIdx` of the objective column, its objective component is the
minimum of that column, and every strictly earlier sample has a strictly
larger (hence different) objective value — a stable argmin, with ties won
by the earliest index. -/
theorem minimum_locator_spec (s : List (ℚ × ℚ)) (hs : s ≠ []) :
    ∃ i : Fin s.length,
      i.val = argminIdx (s.map Prod.snd) ∧
      minimumLocator s = s.get i ∧
      (s.get i).2 = listMin (s.map Prod.snd) ∧
      ∀ j : Fin s.length, j.val < i.val → (s.get i).2 < (s.get j).2 := by
  have hmapne : s.map Prod.snd ≠ [] := by
    intro h; exact hs (List.map_eq_nil_iff.mp h)
  have hlt : argminIdx (s.map Prod.snd) < s.length := by
    have := argminIdx_lt_length hmapne
    simpa using this
  refine ⟨⟨argminIdx (s.map Prod.snd), hlt⟩, rfl, ?_, ?_, ?_⟩
  · show ((s.map Prod.fst).getD (argminIdx (s.map Prod.snd)) 0,
      (s.map Prod.snd).getD (argminIdx (s.map Prod.snd)) 0) = _
    have hlen1 : argminIdx (s.map Prod.snd) < (s.map Prod.fst).length := by simpa using hlt
    have hlen2 : argminIdx (s.map Prod.snd) < (s.map Prod.snd).length := by simpa using hlt
    rw [List.getD_eq_getElem _ _ hlen1, List.getD_eq_getElem _ _ hlen2]
    simp [List.get_eq_getElem]
  · have hlen2 : argminIdx (s.map Prod.snd) < (s.map Prod.snd).length := by simpa using hlt
    have := getD_argminIdx hmapne
    rw [List.getD_eq_getElem _ _ hlen2] at this
    simp only [List.getElem_map] at this
    simp only [List.get_eq_getElem]
    exact this
  · intro j hj
    have hlenj : j.val < (s.map Prod.snd).length := by
      simp only [List.length_map]
      exact j.isLt
    have h1 := getD_lt_argminIdx (l := s.map Prod.snd) (j := j.val) hj
    rw [List.getD_eq_getElem _ _ hlenj] at h1
    have h2 := getD_argminIdx hmapne
    have hlen2 : argminIdx (s.map Prod.snd) < (s.map Prod.snd).length := by simpa using hlt
    rw [List.getD_eq_getElem _ _ hlen2] at h2
    simp only [List.getElem_map] at h1 h2
    simp only [List.get_eq_getElem]
    calc (s[argminIdx (s.map Prod.snd)]).2 = listMin (s.map Prod.snd) := h2
    _ < (s[j.val]).2 := h1

/-- C5 witness: the Series `[(1, 5), (2, 3), (4, 3)]`, whose minimum
objective `3` occurs first at index 1 (angle `2`). -/
theorem minimum_locator_spec_witness :
    ∃ i : Fin ([((1 : ℚ), (5 : ℚ)), (2, 3), (4, 3)]).length,
      i.val = argminIdx (([((1 : ℚ), (5 : ℚ)), (2, 3), (4, 3)]).map Prod.snd) ∧
      minimumLocator [((1 : ℚ), (5 : ℚ)), (2, 3), (4, 3)]
        = ([((1 : ℚ), (5 : ℚ)), (2, 3), (4, 3)]).get i ∧
      (([((1 : ℚ), (5 : ℚ)), (2, 3), (4, 3)]).get i).2
        = listMin (([((1 : ℚ), (5 : ℚ)), (2, 3), (4, 3)]).map Prod.snd) ∧
      ∀ j : Fin ([((1 : ℚ), (5 : ℚ)), (2, 3), (4, 3)]).length, j.val < i.val →
        (([((1 : ℚ), (5 : ℚ)), (2, 3), (4, 3)]).get i).2
          < (([((1 : ℚ), (5 : ℚ)), (2, 3), (4, 3)]).get j).2 :=
  minimum_locator_spec [((1 : ℚ), (5 : ℚ)), (2, 3), (4, 3)] (by simp)

theorem parseRow_eq_none_iff {r : List (Option ℚ)} :
    parseRow r = none ↔ (none : Option ℚ) ∈ r := by
  induction r with
  | nil => simp [parseRow]
  | cons f fs ih =>
    cases f with
    | none => simp [parseRow]
    | some v => simp [parseRow, Option.map_eq_none', ih]

theorem load_rows_error_of_bad_row {rs : List (List (Option ℚ))}
    (h : ∃ r ∈ rs, (none : Option ℚ) ∈ r) :
    load_rows rs = .error .parseError := by
  induction rs with
  | nil => simp at h
  | cons r rs ih =>
    rcases h with ⟨r2, hr2, hmem⟩
    rcases List.mem_cons.mp hr2 with rfl | hr2
    · simp [load_rows, parseRow_eq_none_iff.mpr hmem]
    · cases hr : parseRow r with
      | none => simp [load_rows, hr]
      | some pr => simp [load_rows, hr, ih ⟨r2, hr2, hmem⟩]

theorem load_rows_ok_of_clean {rs : List (List (Option ℚ))}
    (h : ∀ r ∈ rs, (none : Option ℚ) ∉ r) :
    ∃ tl, load_rows rs = .ok tl := by
  induction rs with
  | nil => exact ⟨[], rfl⟩
  | cons r rs ih =>
    cases hr : parseRow r with
    | none => exact absurd (parseRow_eq_none_iff.mp hr) (h r (List.mem_cons_self r rs))
    | some pr =>
      obtain ⟨tl, htl⟩ := ih (fun r2 hr2 => h r2 (List.mem_cons_of_mem r hr2))
      exact ⟨pr :: tl, by simp [load_rows, hr, htl]⟩

/-- C6: the Series Loader skips row 0 exactly when its first field fails
to parse as a float (first conjunct: a failing first field makes the load
ignore row 0 entirely; second conjunct: a parsing first field makes row 0
the first data row of the result); and any row after row 0 containing a
field that fails to parse makes the whole load return a ParseError, with
no partial result (third conjunct — this also covers a row-0 data row
whose later field fails).  Row 0 is assumed nonempty (an empty row 0 would
hit Python's uncaught `IndexError` on `row[0]` instead). -/
theorem series_loader_spec (r0 : List (Option ℚ)) (rest : List (List (Option ℚ)))
    (h0 : r0 ≠ []) :
    (r0.head? = some none → load_csv_data (r0 :: rest) = load_rows rest) ∧
    (∀ v, r0.head? = some (some v) → (none : Option ℚ) ∉ r0 →
      (∀ r ∈ rest, (none : Option ℚ) ∉ r) →
      ∃ p tl, parseRow r0 = some p ∧ load_rows rest = .ok tl ∧
        load_csv_data (r0 :: rest) = .ok (p :: tl)) ∧
    ((∃ r ∈ rest, (none : Option ℚ) ∈ r) →
      load_csv_data (r0 :: rest) = .error .parseError) := by
  obtain ⟨f0, fs, rfl⟩ : ∃ f0 fs, r0 = f0 :: fs := by
    cases r0 with
    | nil => exact absurd rfl h0
    | cons f0 fs => exact ⟨f0, fs, rfl⟩
  refine ⟨?_, ?_, ?_⟩
  · intro hhead
    have : f0 = none := by simpa using hhead
    subst this
    rfl
  · intro v hhead hclean0 hcleanrest
    have : f0 = some v := by simpa using hhead
    subst this
    cases hp : parseRow (some v :: fs) with
    | none => exact absurd (parseRow_eq_none_iff.mp hp) hclean0
    | some p =>
      obtain ⟨tl, htl⟩ := load_rows_ok_of_clean hcleanrest
      exact ⟨p, tl, rfl, htl, by simp [load_csv_data, hp, htl]⟩
  · intro hbad
    have herr : load_rows rest = .error .parseError := load_rows_error_of_bad_row hbad
    cases f0 with
    | none => simpa [load_csv_data] using herr
    | some v =>
      cases hp : parseRow (some v :: fs) with
      | none => simp [load_csv_data, hp]
      | some p => simp [load_csv_data, hp, herr]

/-- C6 witness: a header row `[none]` (non-numeric first field) is
skipped; a table whose second row contains an unparseable field loads to a
ParseError. -/
theorem series_loader_spec_witness :
    load_csv_data [[none], [some 1, some 2]] = load_rows [[some 1, some 2]] ∧
    load_csv_data [[some 0, some 1], [some 1, none]] = .error .parseError :=
  ⟨(series_loader_spec [none] [[some 1, some 2]] (by simp)).1 rfl,
   (series_loader_spec [some 0, some 1] [[some 1, none]] (by simp)).2.2
     ⟨[some 1, none], List.mem_cons_self _ _, by simp⟩⟩

/-- C10: the header heuristic looks only at the first field of row 0.  A
first row whose first field parses but which contains a later unparseable
field is not treated as a header: the load fails with a ParseError
(whatever the remaining rows are).  Conversely a first row whose first
field fails to parse is skipped no matter what its remaining fields
contain. -/
theorem series_loader_first_field_spec (v : ℚ) (fs : List (Option ℚ))
    (rest : List (List (Option ℚ))) :
    ((none : Option ℚ) ∈ fs →
      load_csv_data ((some v :: fs) :: rest) = .error .parseError) ∧
    (∀ gs : List (Option ℚ), load_csv_data ((none :: gs) :: rest) = load_rows rest) := by
  constructor
  · intro hmem
    have hp : parseRow (some v :: fs) = none :=
      parseRow_eq_none_iff.mpr (List.mem_cons_of_mem _ hmem)
    simp [load_csv_data, hp]
  · intro gs
    rfl

/-- C10 witness: `[3, <bad>]` as row 0 aborts with a ParseError even
though its first field is numeric; `[<bad>, <bad>]` as row 0 is skipped
even though all its fields are non-numeric. -/
theorem series_loader_first_field_witness :
    load_csv_data [[some 3, none], [some 1]] = .error .parseError ∧
    load_csv_data [[none, none], [some 2]] = load_rows [[some 2]] :=
  ⟨(series_loader_first_field_spec 3 [none] [[some 1]]).1 (by simp),
   (series_loader_first_field_spec 3 [none] [[some 2]]).2 [none]⟩

theorem zipWith_self (f : ℚ → ℚ → ℚ) (l : List ℚ) :
    List.zipWith f l l = l.map (fun a => f a a) := by
  induction l with
  | nil => rfl
  | cons x tl ih => simp [List.zipWith, ih]

theorem sum_map_sq_nonneg (l : List ℚ) : 0 ≤ (l.map (fun a => a * a)).sum := by
  induction l with
  | nil => simp
  | cons x tl ih =>
    simp only [List.map_cons, List.sum_cons]
    have := mul_self_nonneg x
    linarith

theorem sum_map_sq_eq_zero_iff (l : List ℚ) :
    (l.map (fun a => a * a)).sum = 0 ↔ ∀ a ∈ l, a = 0 := by
  induction l with
  | nil => simp
  | cons x tl ih =>
    simp only [List.map_cons, List.sum_cons, List.mem_cons, forall_eq_or_imp]
    constructor
    · intro h
      have h1 := mul_self_nonneg x
      have h2 := sum_map_sq_nonneg tl
      have hx : x * x = 0 := by linarith
      have htl : (tl.map (fun a => a * a)).sum = 0 := by linarith
      exact ⟨mul_self_eq_zero.mp hx, ih.mp htl⟩
    · rintro ⟨rfl, htl⟩
      simp [ih.mpr htl]

theorem varSum_eq_sum_sq (x : List ℚ) :
    varSum x = ((deviations x).map (fun a => a * a)).sum := by
  unfold varSum covSum
  rw [zipWith_self]

theorem varSum_nonneg (x : List ℚ) : 0 ≤ varSum x := by
  rw [varSum_eq_sum_sq]; exact sum_map_sq_nonneg _

theorem varSum_eq_zero_iff (x : List ℚ) :
    varSum x = 0 ↔ ∀ a ∈ x, a = mean x := by
  rw [varSum_eq_sum_sq, sum_map_sq_eq_zero_iff]
  unfold deviations
  simp [sub_eq_zero]

theorem varSum_ne_zero_of_nonconstant {x : List ℚ}
    (hnc : ¬ ∀ a ∈ x, ∀ b ∈ x, a = b) : varSum x ≠ 0 := by
  intro h0
  apply hnc
  intro a ha b hb
  have h := (varSum_eq_zero_iff x).mp h0
  rw [h a ha, h b hb]

theorem sum_map_neg (l : List ℚ) : (l.map (fun a => -a)).sum = -l.sum := by
  induction l with
  | nil => simp
  | cons x tl ih => simp [ih]; ring

theorem mean_map_neg (l : List ℚ) : mean (l.map (fun a => -a)) = -mean l := by
  unfold mean
  rw [sum_map_neg, List.length_map, neg_div]

theorem deviations_map_neg (l : List ℚ) :
    deviations (l.map (fun a => -a)) = (deviations l).map (fun a => -a) := by
  unfold deviations
  rw [mean_map_neg, List.map_map, List.map_map]
  congr 1
  funext a
  simp
  ring

theorem covSum_map_neg_right (x : List ℚ) :
    covSum x (x.map (fun a => -a)) = -varSum x := by
  unfold covSum varSum covSum
  rw [deviations_map_neg]
  have : List.zipWith (fun a b => a * b) (deviations x) ((deviations x).map (fun a => -a))
      = (List.zipWith (fun a b => a * b) (deviations x) (deviations x)).map (fun a => -a) := by
    generalize deviations x = d
    induction d with
    | nil => rfl
    | cons q tl ih => simp [List.zipWith, ih]
  rw [this, sum_map_neg]

theorem varSum_map_neg (x : List ℚ) : varSum (x.map (fun a => -a)) = varSum x := by
  unfold varSum covSum
  rw [deviations_map_neg]
  congr 1
  generalize deviations x = d
  induction d with
  | nil => rfl
  | cons q tl ih => simp [List.zipWith, ih]

/-- C7: when the two derivative columns are elementwise equal (the single
column `x`, nonconstant so that the variance is nonzero, with at least two
samples) the Pearson correlation is `1` and the RMSE is `0`; when the
numerical column is the elementwise negation of the analytical one the
correlation is `-1`. -/
theorem derivative_comparator_identity (x : List ℚ) (h2 : 2 ≤ x.length)
    (hnc : ¬ ∀ a ∈ x, ∀ b ∈ x, a = b) :
    corrcoef x x = some 1 ∧ rmse x x = 0 ∧
    corrcoef x (x.map (fun a => -a)) = some (-1) := by
  have hv : varSum x ≠ 0 := varSum_ne_zero_of_nonconstant hnc
  have hvR : ((varSum x : ℚ) : ℝ) ≠ 0 := by exact_mod_cast hv
  have hv0 : (0 : ℝ) ≤ ((varSum x : ℚ) : ℝ) := by exact_mod_cast varSum_nonneg x
  have hsqrt : Real.sqrt (varSum x) * Real.sqrt (varSum x) = ((varSum x : ℚ) : ℝ) :=
    Real.mul_self_sqrt hv0
  refine ⟨?_, ?_, ?_⟩
  · unfold corrcoef
    rw [if_neg (by simp [hv])]
    have hcov : covSum x x = varSum x := rfl
    rw [hcov, hsqrt, div_self hvR]
  · unfold rmse
    have hzip : List.zipWith (fun a b => a - b) x x = x.map (fun a => a - a) :=
      zipWith_self _ x
    rw [hzip]
    have h0 : ((x.map (fun a => a - a)).map (fun d => d * d)).sum = 0 := by
      rw [List.map_map]
      have hf : ((fun d => d * d) ∘ fun a : ℚ => a - a) = fun _ : ℚ => 0 := by
        funext a
        simp
      rw [hf]
      induction x with
      | nil => rfl
      | cons y tl ih => simp [ih]
    unfold mean
    rw [h0]
    simp
  · unfold corrcoef
    rw [if_neg (by simp [hv, varSum_map_neg])]
    rw [covSum_map_neg_right, varSum_map_neg, hsqrt]
    push_cast
    rw [neg_div, div_self hvR]

/-- C7 witness: the column `[0, 1]`. -/
theorem derivative_comparator_identity_witness :
    corrcoef [0, 1] [0, 1] = some 1 ∧ rmse [0, 1] [0, 1] = 0 ∧
    corrcoef [0, 1] (([0, 1] : List ℚ).map (fun a => -a)) = some (-1) :=
  derivative_comparator_identity [0, 1] (by simp) (by
    intro h
    have := h 0 (by simp) 1 (by simp)
    norm_num at this)

/-- C8: a zero-variance (constant) derivative column makes the correlation
degenerate: the Derivative Comparator reports `none` for it (NumPy's NaN),
while the rest of the report — here the RMSE — is still produced: the
failure is fatal for the correlation only, not for the run. -/
theorem derivative_comparator_zero_variance (angles ana num : List ℚ) (e : ℚ)
    (hnum : num ≠ []) (hana : ana ≠ [])
    (h : popVar num = 0 ∨ popVar ana = 0) :
    (derivative_stats angles ana num e).correlation = none ∧
    (derivative_stats angles ana num e).rmseValue = rmse num ana := by
  have hbridge : ∀ c : List ℚ, c ≠ [] → popVar c = 0 → varSum c = 0 := by
    intro c hc h0
    unfold popVar at h0
    rcases div_eq_zero_iff.mp h0 with h1 | h1
    · exact h1
    · have h2 : c.length ≠ 0 := by
        simpa [List.length_eq_zero] using hc
      exact absurd (by exact_mod_cast h1) h2
  have hvar : varSum num = 0 ∨ varSum ana = 0 := by
    rcases h with h | h
    · exact Or.inl (hbridge num hnum h)
    · exact Or.inr (hbridge ana hana h)
  constructor
  · show corrcoef num ana = none
    unfold corrcoef
    rw [if_pos hvar]
  · rfl

/-- C8 witness: the constant numerical column `[2, 2]` (zero variance)
against the analytical column `[3, 4]`. -/
theorem derivative_comparator_zero_variance_witness :
    (derivative_stats [1, 2] [3, 4] [2, 2] 1).correlation = none ∧
    (derivative_stats [1, 2] [3, 4] [2, 2] 1).rmseValue = rmse [2, 2] [3, 4] :=
  derivative_comparator_zero_variance [1, 2] [3, 4] [2, 2] 1 (by simp) (by simp)
    (Or.inl (by
      unfold popVar varSum covSum deviations mean
      norm_num))

/-- C9: when the objective-function table is missing the run stops at once
with a diagnostic naming `results/objective_function.csv`; when it is
present but the derivatives table is missing the run stops with a
diagnostic naming `results/derivatives.csv`.  `mainRun` is a total
function, so the run terminates without raising, and the outcome being the
`missingFile` diagnostic (not a `report`) shows no downstream plotting,
statistics or verdict computation happens. -/
theorem missing_input_diagnostic (cli : Option ℚ) (side : SideChannel)
    (objFile derivFile : Option (List (List (Option ℚ)))) :
    (objFile = none →
      mainRun cli side objFile derivFile
        = .missingFile "results/objective_function.csv") ∧
    (objFile ≠ none → derivFile = none →
      mainRun cli side objFile derivFile
        = .missingFile "results/derivatives.csv") := by
  constructor
  · rintro rfl
    rfl
  · intro hobj hderiv
    obtain ⟨rows, rfl⟩ := Option.ne_none_iff_exists.mp hobj
    subst hderiv
    rfl

/-- C9 witness: both files absent stops at the objective table; only the
derivatives table absent stops at the derivatives table. -/
theorem missing_input_diagnostic_witness :
    mainRun none .absent none none
      = .missingFile "results/objective_function.csv" ∧
    mainRun none .absent (some []) none
      = .missingFile "results/derivatives.csv" :=
  ⟨(missing_input_diagnostic none .absent none none).1 rfl,
   (missing_input_diagnostic none .absent (some []) none).2 (by simp) rfl⟩

end PlotResults
